import Mathlib

/-!
Verification of the adaptive-assessment and prerequisite-gating core of a
self-paced learning portal.  The Python sources under
`services/quiz_analysis_utils.py`, `services/ai_service.py` and
`services/progress_service.py` are shallowly embedded below: dictionaries
become structures, the Flask session becomes an explicit association list,
machine/float arithmetic becomes exact arithmetic over `Nat`/`Rat`, and the
external collaborators (content store, LLM) become function/inductive
parameters.  Python string primitives (`strip`, `lower`, `split`,
`startswith`) are re-implemented over `String.data` so that every definition
evaluates inside the kernel.
-/

/-! ### Python string primitives -/

/-- Characters of `str.strip()`: drop whitespace from both ends. -/
def stripChars (cs : List Char) : List Char :=
  ((cs.dropWhile Char.isWhitespace).reverse.dropWhile Char.isWhitespace).reverse

/-- Models Python `str.strip()`. -/
def pyStrip (s : String) : String := ⟨stripChars s.data⟩

/-- Models Python `str.lower()` (ASCII case folding). -/
def pyLower (s : String) : String := ⟨s.data.map Char.toLower⟩

/-- Splitting a character list at every comma; pieces are kept in order and
may be empty, as with Python `str.split(",")`. -/
def splitCommaChars : List Char → List Char → List (List Char)
  | [], acc => [acc.reverse]
  | c :: rest, acc =>
      if c = ',' then acc.reverse :: splitCommaChars rest []
      else splitCommaChars rest (c :: acc)

/-- Models Python `str.split(",")`. -/
def pySplitComma (s : String) : List String :=
  (splitCommaChars s.data []).map (fun cs => ⟨cs⟩)

/-- Models Python `str.startswith(pre)`. -/
def pyStartsWith (s pre : String) : Bool := pre.data.isPrefixOf s.data

/-- Python truthiness chain `a or b` for strings: `""` is falsy. -/
def pyOrS (a b : String) : String := if a = "" then b else a

/-- Python truthiness chain `a or b` for lists: `[]` is falsy. -/
def pyOrList {α : Type} (a b : List α) : List α := if a.isEmpty then b else a

/-- Python `a or b` where `a` is an optional string (`None` and `""` falsy). -/
def pyOrOptS (a : Option String) (b : String) : String :=
  match a with
  | none => b
  | some s => if s = "" then b else s

/-! ### Data model: questions

A quiz question is a Python dict with optional, duck-typed fields.  The
fields actually read by the analysis code are embedded; a field that may be
absent or `None` becomes an `Option`.  The question text (`"question"` key)
is modelled as always present, matching every fixture in the repository. -/

/-- One entry of a question's `options` list: either a plain string or a
dict carrying `text` / `value` keys. -/
inductive OptionEntry : Type
  | str (s : String)
  | obj (text : Option String) (value : Option String)
deriving DecidableEq, Repr

/-- A quiz question (`services/quiz_analysis_utils.py` reads these keys). -/
structure Question : Type where
  id : Option String
  question_id : Option String
  question : String
  qtype : Option String
  options : Option (List OptionEntry)
  answer_index : Option Int
  correct_answer : Option String
  answer : Option String
  acceptable_answers : Option (List String)
  correct_answers : Option (List String)
  tags : List String
  topic : List String
  difficulty : Option String
deriving DecidableEq, Repr

/-- The value `question.get("type", "multiple_choice")` normalised as in
`is_answer_correct`: `str(...).strip().lower()`. -/
def questionTypeNorm (q : Question) : String :=
  pyLower (pyStrip (q.qtype.getD "multiple_choice"))

/-- Resolution of a dict-valued option entry:
`value.get("text") or value.get("value")`, then `str(value) if value is not
None else ""`. -/
def optionEntryText : OptionEntry → String
  | .str s => s
  | .obj text value =>
      match (match text with
             | some s => if s = "" then value else some s
             | none => value) with
      | some s => s
      | none => ""

/-- Python `question.get("acceptable_answers") or question.get("correct_answers")`
(`None` and the empty list are falsy). -/
def acceptableThenCorrect (q : Question) : Option (List String) :=
  match q.acceptable_answers with
  | some (a :: rest) => some (a :: rest)
  | _ => match q.correct_answers with
         | some (a :: rest) => some (a :: rest)
         | _ => none

/-- Python `question.get("correct_answers") or question.get("acceptable_answers")`
(the reversed precedence used inside `is_answer_correct`). -/
def correctThenAcceptable (q : Question) : Option (List String) :=
  match q.correct_answers with
  | some (a :: rest) => some (a :: rest)
  | _ => match q.acceptable_answers with
         | some (a :: rest) => some (a :: rest)
         | _ => none

/-- Embeds `resolve_correct_answer` from `services/quiz_analysis_utils.py`:
the canonical correct-answer text, resolved from `correct_answer`, `answer`,
`answer_index` into `options`, or the head of
`acceptable_answers`/`correct_answers`. -/
def resolve_correct_answer (q : Question) : String :=
  match q.correct_answer with
  | some s => s
  | none =>
    match q.answer with
    | some s => s
    | none =>
      let byIndex : Option String :=
        match q.answer_index, q.options with
        | some i, some opts =>
            if h : 0 ≤ i ∧ i.toNat < opts.length then
              some (optionEntryText (opts.get ⟨i.toNat, h.2⟩))
            else none
        | _, _ => none
      match byIndex with
      | some s => s
      | none =>
        match acceptableThenCorrect q with
        | some (a :: _) => a
        | _ => ""

/-- The merged list of acceptable fill-in-the-blank answers assembled inside
`is_answer_correct`: the comma-split primary answer (trimmed, lowered,
blanks dropped) followed by the trimmed, lowered, non-blank entries of
`correct_answers or acceptable_answers`. -/
def fillBlankAcceptable (q : Question) : List String :=
  let answer_text := resolve_correct_answer q
  let fromPrimary :=
    if answer_text = "" then []
    else (pySplitComma answer_text).filterMap
      (fun part => if pyStrip part = "" then none else some (pyLower (pyStrip part)))
  let raw_list := correctThenAcceptable q
  let fromList :=
    match raw_list with
    | some items => items.filterMap
        (fun item => if pyStrip item = "" then none else some (pyLower (pyStrip item)))
    | none => []
  fromPrimary ++ fromList

/-- Embeds `is_answer_correct` from `services/quiz_analysis_utils.py`. -/
def is_answer_correct (q : Question) (user_answer : String) : Bool :=
  let question_type := questionTypeNorm q
  let answer_text := resolve_correct_answer q
  let user_clean := pyStrip user_answer
  if user_clean = "" then false
  else if question_type = "multiple_choice" then
    user_clean = pyStrip answer_text
  else if question_type = "fill_in_the_blank" then
    let acceptable := fillBlankAcceptable q
    if acceptable.isEmpty then false else acceptable.contains (pyLower user_clean)
  else if question_type = "coding" then
    false
  else
    pyLower user_clean = pyLower (pyStrip answer_text)

/-- Embeds `collect_question_tags`: all tags/topics defined on a question. -/
def collect_question_tags (q : Question) : List String :=
  q.tags ++ q.topic

/-- Recursion behind `normalize_tags`, carrying the `seen` set of lowered
keys. -/
def normalizeTagsAux (seen : List String) : List String → List String
  | [] => []
  | tag :: rest =>
      let cleaned := pyStrip tag
      if cleaned = "" then normalizeTagsAux seen rest
      else if pyLower cleaned ∈ seen then normalizeTagsAux seen rest
      else cleaned :: normalizeTagsAux (pyLower cleaned :: seen) rest

/-- Embeds `normalize_tags`: trim, drop blanks, case-insensitive dedup with
first-occurrence order. -/
def normalize_tags (tags : List String) : List String :=
  normalizeTagsAux [] tags

/-- The allowed-tag lookup `{str(tag).lower(): str(tag)}` built from an
allowed list: Python dict construction lets a later entry overwrite an
earlier one, so lookup returns the last tag whose lowering matches. -/
def lookupAllowed (allowed : List String) (key : String) : Option String :=
  allowed.reverse.find? (fun a => pyLower a = key)

/-- Recursion behind `filter_allowed_tags`, carrying the `seen` set. -/
def filterAllowedAux (allowed : List String) (seen : List String) :
    List String → List String
  | [] => []
  | tag :: rest =>
      let cleaned := pyStrip tag
      if cleaned = "" then filterAllowedAux allowed seen rest
      else
        let key := pyLower cleaned
        match lookupAllowed allowed key with
        | none => filterAllowedAux allowed seen rest
        | some canonical =>
            if key ∈ seen then filterAllowedAux allowed seen rest
            else canonical :: filterAllowedAux allowed (key :: seen) rest

/-- Embeds `filter_allowed_tags`: with an empty lookup it degrades to
`normalize_tags`; otherwise tags are filtered against the vocabulary,
deduplicated case-insensitively, and surfaced in the vocabulary's canonical
casing. -/
def filter_allowed_tags (tags allowed : List String) : List String :=
  if allowed.isEmpty then normalize_tags tags
  else filterAllowedAux allowed [] tags

/-- Embeds `_apply_rule_based_topics`: a wrong coding question contributes
`"programming logic"`, a wrong advanced question `"advanced practice"`. -/
def apply_rule_based_topics (q : Question) (is_correct : Bool)
    (detected : List String) : List String :=
  if is_correct then detected
  else
    let question_type := pyLower (pyStrip (q.qtype.getD ""))
    let withCoding :=
      if question_type = "coding" then detected ++ ["programming logic"] else detected
    match q.difficulty with
    | some d => if pyLower d = "advanced" then withCoding ++ ["advanced practice"]
                else withCoding
    | none => withCoding

/-! ### Allowed-tag vocabulary cache (`_ALLOWED_TAG_CACHE`, `_get_allowed_tags`) -/

/-- The external content store, reduced to the one operation the analysis
code uses: `data_service.get_subject_allowed_tags(subject)`. -/
def DataService : Type := String → List String

/-- The module-level `_ALLOWED_TAG_CACHE` dictionary, threaded explicitly. -/
def TagCache : Type := List (String × List String)

/-- First-match association-list lookup (Python dict keys are unique, so
first match is the dict lookup). -/
def cacheLookup (σ : TagCache) (k : String) : Option (List String) :=
  match σ with
  | [] => none
  | (k', v) :: rest => if k' = k then some v else cacheLookup rest k

/-- The normalisation `[str(tag).strip() for tag in tags if ... str(tag).strip()]`. -/
def normalizeAllowedList (tags : List String) : List String :=
  tags.filterMap (fun t => if pyStrip t = "" then none else some (pyStrip t))

/-- Embeds `_get_allowed_tags`: returns the subject's allowed tags through a
case-insensitively keyed in-memory cache, consulting the data service (when
present) only on a cache miss, and returns the updated cache. -/
def get_allowed_tags (subject : String) (data_service : Option DataService)
    (σ : TagCache) : List String × TagCache :=
  if subject = "" then ([], σ)
  else
    let cache_key := pyLower subject
    match cacheLookup σ cache_key with
    | some tags => (tags, σ)
    | none =>
      match data_service with
      | none => ([], σ)
      | some ds =>
          let normalized := normalizeAllowedList (ds subject)
          (normalized, (cache_key, normalized) :: σ)

/-! ### Basic analysis (`compute_basic_quiz_analysis`) -/

/-- One row of the submission loop: question index, question and the
positionally aligned answer (`""` when the answers list is shorter). -/
def quiz_rows : List Question → List String → Nat → List (Nat × Question × String)
  | [], _, _ => []
  | q :: rest, ans, i => (i, q, ans.headD "") :: quiz_rows rest ans.tail (i + 1)

/-- One entry of `rule_based_insights`. -/
structure Insight : Type where
  question_index : Nat
  question : String
  tags : List String
  itype : String
  notes : Option String
deriving DecidableEq, Repr

/-- The `score` sub-dict of an analysis. -/
structure Score : Type where
  correct : Nat
  total : Nat
  percentage : Nat
deriving DecidableEq, Repr

/-- The analysis dict produced by `compute_basic_quiz_analysis` and mutated
by `analyze_quiz_performance`; keys that the AI layer may add later
(`raw_ai_response`, `missed_tags`) are `Option`/empty until written. -/
structure Analysis : Type where
  score : Score
  weak_topics : List String
  weak_tags : List String
  weak_areas : List String
  feedback : String
  ai_analysis : String
  recommendations : List String
  submission_details : List String
  wrong_question_indices : List Nat
  allowed_tags : List String
  used_ai : Bool
  analysis_stage : String
  basic_feedback : String
  rule_based_insights : List Insight
  subject : String
  subtopic : String
  submission_preview : Option String
  raw_ai_response : Option String
  missed_tags : List String
deriving DecidableEq, Repr

/-- Banker's rounding (Python 3 `round`) of the exact ratio `num / den`,
written with integer arithmetic; `den = 0` never occurs at call sites. -/
def py_round_ratio (num den : Nat) : Nat :=
  if den = 0 then 0
  else
    let q := num / den
    let r := num % den
    if 2 * r < den then q
    else if den < 2 * r then q + 1
    else if q % 2 = 0 then q else q + 1

/-- Embeds `_build_submission_detail` (the per-question text block). -/
def build_submission_detail (index : Nat) (q : Question) (user_answer : String)
    (status : String) (correct_answer : String) : String :=
  "Question " ++ toString (index + 1) ++ " (Type: "
    ++ (q.qtype.getD "multiple_choice") ++ "): " ++ q.question
    ++ "\nStudent's Answer:\n---\n"
    ++ (if user_answer = "" then "[No answer provided]" else user_answer)
    ++ "\n---\n"
    ++ (if correct_answer = "" then "" else "Correct Answer: " ++ correct_answer ++ "\n")
    ++ "Status: " ++ status ++ "\n"

/-- Embeds `_generate_basic_feedback`: four fixed tiers with at most five
weak-topic names appended. -/
def generate_basic_feedback (score_percentage : Nat) (weak_topics : List String) : String :=
  let base :=
    if 85 ≤ score_percentage then "Excellent work! You're mastering this material."
    else if 70 ≤ score_percentage then
      "Great job! A little more practice will make these concepts stick."
    else if 50 ≤ score_percentage then
      "Good effort - target the topics below to boost your understanding."
    else "Let's reinforce the fundamentals. Review the weak areas highlighted below."
  if weak_topics.isEmpty then base
  else base ++ " Focus on: " ++ String.intercalate ", " (weak_topics.take 5) ++ "."

/-- The rows answered incorrectly. -/
def wrongRows (questions : List Question) (answers : List String) :
    List (Nat × Question × String) :=
  (quiz_rows questions answers 0).filter (fun r => ¬ is_answer_correct r.2.1 r.2.2)

/-- The `correct_answers` counter of the loop. -/
def correctCount (questions : List Question) (answers : List String) : Nat :=
  (quiz_rows questions answers 0).countP (fun r => is_answer_correct r.2.1 r.2.2)

/-- The `wrong_tag_candidates` accumulated by the loop: detected tags plus
rule-based augmentations of every wrong question, in order. -/
def wrongTagCandidates (questions : List Question) (answers : List String) :
    List String :=
  ((wrongRows questions answers).map
    (fun r => apply_rule_based_topics r.2.1 false (collect_question_tags r.2.1))).flatten

/-- The `weak_topic_details` (the `rule_based_insights` list) built by the loop. -/
def insightList (questions : List Question) (answers : List String) : List Insight :=
  (wrongRows questions answers).map (fun r =>
    { question_index := r.1
      question := r.2.1.question
      tags := normalize_tags (apply_rule_based_topics r.2.1 false (collect_question_tags r.2.1))
      itype := r.2.1.qtype.getD "multiple_choice"
      notes := if pyLower (pyStrip (r.2.1.qtype.getD "")) = "coding" ∧ r.2.2 = ""
               then some "No code submitted for review." else none })

/-- The `submission_details` list built by the loop. -/
def submissionDetails (questions : List Question) (answers : List String) :
    List String :=
  (quiz_rows questions answers 0).map (fun r =>
    build_submission_detail r.1 r.2.1 r.2.2
      (if is_answer_correct r.2.1 r.2.2 then "Correct" else "Incorrect")
      (resolve_correct_answer r.2.1))

/-- Embeds `compute_basic_quiz_analysis`: rule-based scoring, weak-topic
derivation and feedback.  The global `_ALLOWED_TAG_CACHE` is threaded in and
out.  Answer normalisation `str(answer)` is the identity on the `String`
answers of the model. -/
def compute_basic_quiz_analysis (questions : List Question) (answers : List String)
    (subject subtopic : String) (data_service : Option DataService)
    (σ : TagCache) (include_submission_details : Bool) :
    Analysis × TagCache :=
  let total_questions := questions.length
  let correct_answers := correctCount questions answers
  let percentage :=
    if total_questions = 0 then 0
    else py_round_ratio (correct_answers * 100) total_questions
  let allowedPair := get_allowed_tags subject data_service σ
  let allowed_tags := allowedPair.1
  let filtered0 := filter_allowed_tags (wrongTagCandidates questions answers) allowed_tags
  let filtered_tags :=
    if filtered0.isEmpty then normalize_tags (wrongTagCandidates questions answers)
    else filtered0
  let feedback_message := generate_basic_feedback percentage filtered_tags
  let details := if include_submission_details then submissionDetails questions answers else []
  ({ score := { correct := correct_answers, total := total_questions,
                percentage := percentage }
     weak_topics := filtered_tags
     weak_tags := filtered_tags
     weak_areas := filtered_tags
     feedback := feedback_message
     ai_analysis := ""
     recommendations := []
     submission_details := details
     wrong_question_indices := (wrongRows questions answers).map (·.1)
     allowed_tags := allowed_tags
     used_ai := false
     analysis_stage := "basic"
     basic_feedback := feedback_message
     rule_based_insights := insightList questions answers
     subject := subject
     subtopic := subtopic
     submission_preview :=
       if include_submission_details
       then some ⟨(String.join details).data.take 500⟩ else none
     raw_ai_response := none
     missed_tags := [] },
   allowedPair.2)

/-! ### Progress service: the Flask session as an explicit store

`services/progress_service.py` keeps per-learner state in the Flask session,
a string-keyed map.  The request-context code path is embedded; the session
becomes an association list threaded through every operation.  `session[k] = v`
replaces the first binding of `k` (appending when absent), `session.pop`
removes every binding of `k`, matching dict semantics on a list whose keys
are unique along reachable states. -/

/-- The sanitized analysis stored by `store_quiz_analysis` (the
`keys_to_keep` subset of `prepare_analysis_for_session`). -/
structure StoredAnalysis : Type where
  score : Score
  weak_topics : List String
  weak_tags : List String
  weak_areas : List String
  missed_tags : List String
  feedback : String
  ai_analysis : String
  recommendations : List String
  allowed_tags : List String
  used_ai : Bool
  submission_preview : Option String
  raw_ai_response_preview : Option String
deriving DecidableEq, Repr

/-- A value stored under one session key. -/
inductive SessVal : Type
  | strs (xs : List String)
  | bool (b : Bool)
  | str (s : String)
  | analysis (a : StoredAnalysis)
  | questions (qs : List Question)
deriving DecidableEq, Repr

/-- The Flask session: an explicit association list. -/
def Session : Type := List (String × SessVal)

/-- Lookup `session.get(k)`: first binding wins (dict keys are unique along
reachable states). -/
def sget (σ : Session) (k : String) : Option SessVal :=
  match σ with
  | [] => none
  | (k', v) :: rest => if k' = k then some v else sget rest k

/-- Assignment `session[k] = v`: replace the first binding, append when absent. -/
def sset (σ : Session) (k : String) (v : SessVal) : Session :=
  match σ with
  | [] => [(k, v)]
  | (k', v') :: rest => if k' = k then (k, v) :: rest else (k', v') :: sset rest k v

/-- Read `session.get(k, [])` as a string list (`[]` on a type mismatch,
which reachable states never produce). -/
def sgetStrs (σ : Session) (k : String) : List String :=
  match sget σ k with
  | some (.strs xs) => xs
  | _ => []

/-- Embeds `get_session_key`: the `f"{subject}_{subtopic}_{key_type}"`
key-construction scheme. -/
def get_session_key (subject subtopic key_type : String) : String :=
  subject ++ "_" ++ subtopic ++ "_" ++ key_type

/-- Embeds `clear_session_data` (session part): pop every key that starts
with the `f"{subject}_{subtopic}"` scope text. -/
def clear_session_data (subject subtopic : String) (σ : Session) : Session :=
  σ.filter (fun kv => ! pyStartsWith kv.1 (subject ++ "_" ++ subtopic))

/-- Embeds `mark_lesson_complete` (request-context path): idempotent
append of the lesson id; returns the success flag and the new session. -/
def mark_lesson_complete (subject subtopic lesson_id : String) (σ : Session) :
    Bool × Session :=
  let completed_key := get_session_key subject subtopic "completed_lessons"
  let completed_lessons := sgetStrs σ completed_key
  if lesson_id ∈ completed_lessons then (true, σ)
  else (true, sset σ completed_key (.strs (completed_lessons ++ [lesson_id])))

/-- Embeds `is_lesson_complete` (request-context path). -/
def is_lesson_complete (subject subtopic lesson_id : String) (σ : Session) : Bool :=
  lesson_id ∈ sgetStrs σ (get_session_key subject subtopic "completed_lessons")

/-- Embeds `get_completed_lessons` (request-context path). -/
def get_completed_lessons (subject subtopic : String) (σ : Session) : List String :=
  sgetStrs σ (get_session_key subject subtopic "completed_lessons")

/-- Embeds `mark_video_complete` (request-context path). -/
def mark_video_complete (subject subtopic video_id : String) (σ : Session) :
    Bool × Session :=
  let watched_key := get_session_key subject subtopic "watched_videos"
  let watched_videos := sgetStrs σ watched_key
  if video_id ∈ watched_videos then (true, σ)
  else (true, sset σ watched_key (.strs (watched_videos ++ [video_id])))

/-- Embeds `is_video_complete` (request-context path). -/
def is_video_complete (subject subtopic video_id : String) (σ : Session) : Bool :=
  video_id ∈ sgetStrs σ (get_session_key subject subtopic "watched_videos")

/-- Embeds `get_watched_videos` (request-context path). -/
def get_watched_videos (subject subtopic : String) (σ : Session) : List String :=
  sgetStrs σ (get_session_key subject subtopic "watched_videos")

/-- The normalisation loop inside `set_weak_topics` (trim, drop blanks,
case-insensitive dedup, first occurrence kept). -/
def weakTopicsNormalizeAux (seen : List String) : List String → List String
  | [] => []
  | topic :: rest =>
      let cleaned := pyStrip topic
      if cleaned = "" then weakTopicsNormalizeAux seen rest
      else if pyLower cleaned ∈ seen then weakTopicsNormalizeAux seen rest
      else cleaned :: weakTopicsNormalizeAux (pyLower cleaned :: seen) rest

/-- Embeds `set_weak_topics`: stores the normalised topic list. -/
def set_weak_topics (subject subtopic : String) (topics : List String)
    (σ : Session) : Session :=
  sset σ (get_session_key subject subtopic "weak_topics")
    (.strs (weakTopicsNormalizeAux [] topics))

/-- Embeds `get_weak_topics`. -/
def get_weak_topics (subject subtopic : String) (σ : Session) : List String :=
  sgetStrs σ (get_session_key subject subtopic "weak_topics")

/-- Embeds `prepare_analysis_for_session`: keep the `keys_to_keep` fields
and truncate the raw previews to 1000 characters. -/
def prepare_analysis_for_session (a : Analysis) : StoredAnalysis :=
  { score := a.score
    weak_topics := a.weak_topics
    weak_tags := a.weak_tags
    weak_areas := a.weak_areas
    missed_tags := a.missed_tags
    feedback := a.feedback
    ai_analysis := a.ai_analysis
    recommendations := a.recommendations
    allowed_tags := a.allowed_tags
    used_ai := a.used_ai
    submission_preview :=
      if a.submission_details.isEmpty then none
      else some ⟨(String.intercalate "\n" a.submission_details).data.take 1000⟩
    raw_ai_response_preview :=
      match a.raw_ai_response with
      | none => none
      | some r => if r = "" then none else some ⟨r.data.take 1000⟩ }

/-- Embeds `store_quiz_analysis`: sanitize, store, return the sanitized copy. -/
def store_quiz_analysis (subject subtopic : String) (a : Analysis) (σ : Session) :
    StoredAnalysis × Session :=
  let sanitized := prepare_analysis_for_session a
  (sanitized, sset σ (get_session_key subject subtopic "analysis_results")
    (.analysis sanitized))

/-- Embeds `get_quiz_analysis`. -/
def get_quiz_analysis (subject subtopic : String) (σ : Session) :
    Option StoredAnalysis :=
  match sget σ (get_session_key subject subtopic "analysis_results") with
  | some (.analysis a) => some a
  | _ => none

/-- Embeds `set_remedial_quiz_data` (topics always provided, as at the one
call site). -/
def set_remedial_quiz_data (subject subtopic : String) (questions : List Question)
    (topics : List String) (σ : Session) : Session :=
  let σ1 := sset σ (get_session_key subject subtopic "remedial_questions")
    (.questions questions)
  sset σ1 (get_session_key subject subtopic "remedial_topics") (.strs topics)

/-- Embeds `get_remedial_quiz_questions`. -/
def get_remedial_quiz_questions (subject subtopic : String) (σ : Session) :
    List Question :=
  match sget σ (get_session_key subject subtopic "remedial_questions") with
  | some (.questions qs) => qs
  | _ => []

/-- Embeds `set_admin_override` (request-context path). -/
def set_admin_override (enabled : Bool) (σ : Session) : Bool × Session :=
  (enabled, sset σ "admin_override" (.bool enabled))

/-- Embeds `get_admin_override_status` (request-context path). -/
def get_admin_override_status (σ : Session) : Bool :=
  match sget σ "admin_override" with
  | some (.bool b) => b
  | _ => false

/-! ### Prerequisite resolver (`_collect_subtopic_content_status`,
`check_subtopic_prerequisites`)

The content store (subject configuration, lesson plans, video catalogues) is
an external collaborator; it is embedded as a `ContentEnv` of functions.
The dict/list duck-typing of `load_lesson_plans` / `get_video_data`
(generated ids `lesson_{i+1}` / `video_{i+1}` when absent) is resolved in
the environment, which directly supplies the `(id, title)` pairs the code
iterates over. -/

/-- First-match lookup in a string-keyed association list (Python dict
lookup; keys are unique in a dict). -/
def alookup {α : Type} : List (String × α) → String → Option α
  | [], _ => none
  | (k', v) :: rest, k => if k' = k then some v else alookup rest k

/-- Last-match lookup: the value a Python dict comprehension keeps when the
same key occurs twice. -/
def lastLookup (items : List (String × String)) (k : String) : Option String :=
  (items.reverse.find? (fun p => p.1 = k)).map (·.2)

/-- Key list of a Python dict comprehension: first-occurrence order, no
duplicates. -/
def dedupKeysFirst (seen : List String) : List String → List String
  | [] => []
  | k :: rest => if k ∈ seen then dedupKeysFirst seen rest
                 else k :: dedupKeysFirst (k :: seen) rest

/-- One subtopic's configuration entry (the keys the resolver reads). -/
structure SubtopicConfig : Type where
  prerequisites : List String
deriving DecidableEq, Repr

/-- The content store as seen by the resolver. -/
structure ContentEnv : Type where
  subtopics : String → List (String × SubtopicConfig)
  lessons : String → String → List (String × String)
  videos : String → String → List (String × String)

/-- Result of `_collect_subtopic_content_status`. -/
structure ContentStatus : Type where
  lesson_ids : List String
  video_ids : List String
  missing_lessons : List String
  missing_videos : List String
  lessons_complete : Bool
  videos_complete : Bool
  all_content_complete : Bool
  lessons_completed : Nat
  videos_watched : Nat
  total_lessons : Nat
  total_videos : Nat
deriving DecidableEq, Repr

/-- Embeds `_collect_subtopic_content_status`: lesson/video completion state
for one subtopic, read from the content store and the session. -/
def collect_subtopic_content_status (env : ContentEnv) (subject subtopic : String)
    (σ : Session) : ContentStatus :=
  let lesson_items := env.lessons subject subtopic
  let lesson_ids := dedupKeysFirst [] (lesson_items.map (·.1))
  let completed_lessons := get_completed_lessons subject subtopic σ
  let missing_lesson_ids := lesson_ids.filter (fun i => i ∉ completed_lessons)
  let missing_lessons := missing_lesson_ids.map
    (fun i => (lastLookup lesson_items i).getD i)
  let video_items := env.videos subject subtopic
  let video_ids := video_items.map (·.1)
  let watched_videos := get_watched_videos subject subtopic σ
  let missing_video_ids := video_ids.filter (fun i => i ∉ watched_videos)
  let missing_videos := missing_video_ids.map
    (fun i => (lastLookup video_items i).getD i)
  let lessons_complete := if lesson_ids.isEmpty then true else missing_lessons.isEmpty
  let videos_complete := if video_ids.isEmpty then true else missing_videos.isEmpty
  { lesson_ids := lesson_ids
    video_ids := video_ids
    missing_lessons := missing_lessons
    missing_videos := missing_videos
    lessons_complete := lessons_complete
    videos_complete := videos_complete
    all_content_complete := lessons_complete && videos_complete
    lessons_completed := lesson_ids.length - missing_lessons.length
    videos_watched := video_ids.length - missing_videos.length
    total_lessons := lesson_ids.length
    total_videos := video_ids.length }

/-- Result of `check_subtopic_prerequisites` (display-name fields, which only
feed the UI, are omitted). -/
structure PrereqStatus : Type where
  subject : String
  subtopic : String
  has_prerequisites : Bool
  admin_override : Bool
  prerequisite_ids : List String
  missing_prerequisite_ids : List String
  completed_prerequisites : Nat
  total_prerequisites : Nat
  can_access_subtopic : Bool
  prerequisites_met : Bool
deriving DecidableEq, Repr

/-- The loop of `check_subtopic_prerequisites`: a configured prerequisite id
is collected as missing when it is not a recognised subtopic, or when its
content is not fully complete. -/
def missingPrereqIds (env : ContentEnv) (subject : String) (σ : Session) :
    List String → List String
  | [] => []
  | p :: rest =>
      match alookup (env.subtopics subject) p with
      | none => p :: missingPrereqIds env subject σ rest
      | some _ =>
          if (collect_subtopic_content_status env subject p σ).all_content_complete
          then missingPrereqIds env subject σ rest
          else p :: missingPrereqIds env subject σ rest

/-- Embeds `check_subtopic_prerequisites`: the aggregate gate decision for a
target subtopic. -/
def check_subtopic_prerequisites (env : ContentEnv) (subject subtopic : String)
    (σ : Session) : PrereqStatus :=
  let subtopics_config := env.subtopics subject
  let target_config := (alookup subtopics_config subtopic).getD ⟨[]⟩
  let prerequisite_ids := target_config.prerequisites.filter (fun p => pyStrip p ≠ "")
  let admin_override := get_admin_override_status σ
  let missing_ids := missingPrereqIds env subject σ prerequisite_ids
  let prerequisites_met := admin_override || missing_ids.isEmpty
  { subject := subject
    subtopic := subtopic
    has_prerequisites := ¬ prerequisite_ids.isEmpty
    admin_override := admin_override
    prerequisite_ids := prerequisite_ids
    missing_prerequisite_ids := missing_ids
    completed_prerequisites := prerequisite_ids.length - missing_ids.length
    total_prerequisites := prerequisite_ids.length
    can_access_subtopic := prerequisites_met
    prerequisites_met := prerequisites_met }

/-! ### AI service (`services/ai_service.py`)

The outbound LLM call plus JSON extraction is a single external collaborator
with three observable outcomes; the analysis cache (`self._analysis_cache`)
is keyed by a SHA-1 of `(subject, subtopic, question ids, answers)`, which
is modelled by the hashed payload itself (SHA-1 treated as injective). -/

/-- Outcome of `call_openai_api` followed by `_extract_json_object`. -/
inductive LLMOutcome : Type
  | failed
  | unparsable (raw : String)
  | parsed (raw : String) (weak_concept_tags : List String)
      (detailed_feedback : Option String) (feedback : Option String)
deriving DecidableEq, Repr

/-- The payload hashed by `_build_cache_key`. -/
abbrev CacheKey : Type := String × String × List String × List String

/-- The fields `_set_cached_analysis` stores. -/
structure CachedFields : Type where
  weak_topics : List String
  weak_tags : List String
  weak_areas : List String
  feedback : String
  ai_analysis : String
  used_ai : Bool
  analysis_stage : String
  raw_ai_response : Option String
deriving DecidableEq, Repr

/-- The `self._analysis_cache` map, threaded explicitly. -/
def AnalysisCache : Type := List (CacheKey × CachedFields)

/-- First-match cache lookup. -/
def acacheLookup (c : AnalysisCache) (k : CacheKey) : Option CachedFields :=
  match c with
  | [] => none
  | (k', v) :: rest => if k' = k then some v else acacheLookup rest k

/-- Embeds `_build_cache_key`: subject, subtopic, per-question identifier
(`id` or `question_id` or question text) and the answers. -/
def build_cache_key (questions : List Question) (answers : List String)
    (subject subtopic : String) : CacheKey :=
  (subject, subtopic,
   questions.map (fun q => pyOrOptS q.id (pyOrOptS q.question_id q.question)),
   answers)

/-- Embeds `_generate_recommendations`. -/
def generate_recommendations (score : Nat) (weak_areas : List String)
    : List String :=
  if 80 ≤ score then
    ["Great job! You have a strong understanding of this topic.",
     "Consider advancing to more challenging topics."]
  else if 60 ≤ score then
    ["Good progress! Focus on reviewing the areas you missed."] ++
    (if weak_areas.isEmpty then []
     else ["Pay special attention to: " ++ String.intercalate ", " weak_areas])
  else
    ["Consider reviewing the lesson materials before retaking the quiz.",
     "Practice exercises might help strengthen your understanding."] ++
    (if weak_areas.isEmpty then []
     else ["Focus your study on: " ++ String.intercalate ", " weak_areas])

/-- Embeds `analyze_quiz_performance`: the enrichment layer over the basic
analysis.  `available` is `self.is_available()`, `outcome` the external LLM
collaborator's observable result; prompt construction only feeds that
collaborator and is not re-modelled.  Returns the analysis together with the
updated allowed-tag cache and analysis cache. -/
def analyze_quiz_performance (ds : DataService) (τ : TagCache)
    (acache : AnalysisCache) (available : Bool) (outcome : LLMOutcome)
    (questions : List Question) (answers : List String)
    (subject subtopic : String) (base_analysis : Option Analysis) :
    Analysis × TagCache × AnalysisCache :=
  let basePair :=
    match base_analysis with
    | some b => (b, τ)
    | none => compute_basic_quiz_analysis questions answers subject subtopic (some ds) τ true
  let base := basePair.1
  let allowed_tags := pyOrList base.allowed_tags (ds subject)
  let analysis0 := { base with allowed_tags := allowed_tags }
  let wrong_tag_candidates := (base.rule_based_insights.map (·.tags)).flatten
  let normalized_missed_tags := normalize_tags wrong_tag_candidates
  let fb0 := pyOrList base.weak_tags base.weak_topics
  let fallback_tags :=
    if fb0.isEmpty then
      let f := filter_allowed_tags wrong_tag_candidates allowed_tags
      if f.isEmpty then normalized_missed_tags else f
    else fb0
  let cache_key := build_cache_key questions answers subject subtopic
  match acacheLookup acache cache_key with
  | some cached =>
      ({ analysis0 with
          weak_topics := cached.weak_topics
          weak_tags := cached.weak_tags
          weak_areas := cached.weak_areas
          feedback := cached.feedback
          ai_analysis := cached.ai_analysis
          used_ai := cached.used_ai
          analysis_stage := cached.analysis_stage
          raw_ai_response :=
            match cached.raw_ai_response with
            | none => analysis0.raw_ai_response
            | some r => some r },
       basePair.2, acache)
  | none =>
    if ¬ available then (analysis0, basePair.2, acache)
    else
      let raw : Option String :=
        match outcome with
        | .failed => none
        | .unparsable r => some r
        | .parsed r _ _ _ => some r
      let analysis1 :=
        { analysis0 with
            raw_ai_response := raw
            missed_tags := normalized_missed_tags }
      let analysis2 :=
        match outcome with
        | .parsed _ candidate_tags detailed_feedback feedback =>
            let validated0 := filter_allowed_tags candidate_tags allowed_tags
            let validated_tags := if validated0.isEmpty then fallback_tags else validated0
            let fb := pyOrOptS detailed_feedback (pyOrOptS feedback analysis1.feedback)
            { analysis1 with
                weak_topics := validated_tags
                weak_tags := validated_tags
                weak_areas := validated_tags
                feedback := fb
                ai_analysis := fb
                used_ai := true
                analysis_stage := "enhanced" }
        | _ =>
            { analysis1 with
                weak_topics := fallback_tags
                weak_tags := fallback_tags
                weak_areas := fallback_tags }
      let analysis3 :=
        if analysis2.recommendations.isEmpty then
          { analysis2 with recommendations :=
              generate_recommendations analysis2.score.percentage analysis2.weak_topics }
        else analysis2
      let acacheOut :=
        if analysis3.used_ai then
          (cache_key,
           { weak_topics := analysis3.weak_topics
             weak_tags := analysis3.weak_tags
             weak_areas := analysis3.weak_areas
             feedback := analysis3.feedback
             ai_analysis := analysis3.ai_analysis
             used_ai := analysis3.used_ai
             analysis_stage := analysis3.analysis_stage
             raw_ai_response := analysis3.raw_ai_response }) :: acache
        else acache
      (analysis3, basePair.2, acacheOut)

/-- Embeds `generate_remedial_quiz` (an `AIService` method that caps its
result at five questions; the remedial-quiz route does not call it — it
calls `select_remedial_questions` below). -/
def generate_remedial_quiz (original_questions : List Question)
    (wrong_answers : List Nat) (question_pool : List Question) : List Question :=
  if question_pool.isEmpty then []
  else
    let weak_topics :=
      (wrong_answers.map (fun i =>
        if h : i < original_questions.length then
          (original_questions.get ⟨i, h⟩).tags.map pyLower
        else [])).flatten
    let remedial :=
      question_pool.filter (fun q => q.tags.any (fun t => pyLower t ∈ weak_topics))
    let remedial2 := if remedial.isEmpty then question_pool.take 5 else remedial
    remedial2.take (min remedial2.length 5)

/-- The question identity used for deduplication: `id` or, when absent or
blank, the question text. -/
def question_identity (q : Question) : String := pyOrOptS q.id q.question

/-- First-occurrence deduplication of questions by `question_identity`. -/
def dedupByIdentity (seen : List String) : List Question → List Question
  | [] => []
  | q :: rest =>
      if question_identity q ∈ seen then dedupByIdentity seen rest
      else q :: dedupByIdentity (question_identity q :: seen) rest

/-- Modelled from the spec: `AIService.select_remedial_questions` — the
remedial selector called by the `generate_remedial_quiz` route and exercised
by `tests/test_quiz_functionality.py` — is absent from the sources; §4.4 of
the spec defines it.  Weak topics are lower-cased; the pool is deduplicated
by question identity and partitioned, preserving order, into questions whose
tags intersect the weak-topic set and filler; relevant questions are taken
first (at most `max_count`, clamped to the pool size) and filler questions
pad the selection up to the minimum target; with no relevant question at all
the first `max_count` pool questions are returned. -/
def select_remedial_questions (question_pool : List Question)
    (weak_topics : List String) (min_count max_count : Nat) : List Question :=
  let weak_set := weak_topics.map pyLower
  let uniquePool := dedupByIdentity [] question_pool
  let isRelevant := fun (q : Question) => q.tags.any (fun t => pyLower t ∈ weak_set)
  let relevant := uniquePool.filter isRelevant
  let filler := uniquePool.filter (fun q => ¬ isRelevant q)
  let target := min max_count question_pool.length
  let min_target := min min_count question_pool.length
  if relevant.isEmpty then uniquePool.take max_count
  else
    let sel := relevant.take target
    if min_target ≤ sel.length then sel
    else sel ++ filler.take (min_target - sel.length)

/-! ### Claim-side definitions

Definitions below state the spec's vocabulary (used on the specification
side of the claim theorems); they are not part of the embedded program. -/

/-- Whether the collaborator outcome parsed into structured data. -/
def LLMOutcome.isParsed : LLMOutcome → Bool
  | .parsed _ _ _ _ => true
  | _ => false

/-- Python 3 `round` on an exact rational: round half to even. -/
def round_half_even (x : ℚ) : ℤ :=
  if Int.fract x < 1/2 then ⌊x⌋
  else if 1/2 < Int.fract x then ⌊x⌋ + 1
  else if 2 ∣ ⌊x⌋ then ⌊x⌋ else ⌊x⌋ + 1

/-- Membership of `t` in the vocabulary `vocab`, compared case-insensitively. -/
def ci_member (t : String) (vocab : List String) : Prop :=
  ∃ a ∈ vocab, pyLower a = pyLower t

/-- A sample multiple-choice question used by witness statements: id `iden`,
correct answer `"x"`, the given tags. -/
def sampleQ (iden : String) (tags : List String) : Question :=
  { id := some iden, question_id := none, question := "sample " ++ iden,
    qtype := some "multiple_choice", options := none, answer_index := none,
    correct_answer := some "x", answer := none, acceptable_answers := none,
    correct_answers := none, tags := tags, topic := [], difficulty := none }

/-- A sample fill-in-the-blank question used by witness statements. -/
def sampleFib : Question :=
  { id := some "fib1", question_id := none, question := "sample fib",
    qtype := some "fill_in_the_blank", options := none, answer_index := none,
    correct_answer := some "alpha, beta", answer := none,
    acceptable_answers := some ["Gamma"], correct_answers := none,
    tags := ["t"], topic := [], difficulty := none }

/-- The nine-question witness pool for the remedial selector (three
questions tagged `loops`). -/
def witnessPool : List Question :=
  [sampleQ "1" ["loops"], sampleQ "2" ["io"], sampleQ "3" ["loops"],
   sampleQ "4" ["types"], sampleQ "5" ["sets"], sampleQ "6" ["loops"],
   sampleQ "7" ["dicts"], sampleQ "8" ["files"], sampleQ "9" ["osdi"]]

/-! ## Supporting lemmas: the session store -/

theorem sget_sset_self (σ : Session) (k : String) (v : SessVal) :
    sget (sset σ k v) k = some v := by
  induction σ with
  | nil => simp [sset, sget]
  | cons kv rest ih =>
      by_cases h : kv.1 = k
      · simp [sset, sget, h]
      · simp [sset, sget, h, ih]

theorem sget_sset_ne (σ : Session) (k k' : String) (v : SessVal) (h : k ≠ k') :
    sget (sset σ k v) k' = sget σ k' := by
  induction σ with
  | nil => simp [sset, sget, h]
  | cons kv rest ih =>
      by_cases hk : kv.1 = k
      · simp [sset, sget, hk, h]
      · simp only [sset, if_neg hk]
        by_cases hk' : kv.1 = k'
        · simp [sget, hk']
        · simp [sget, hk', ih]

theorem sgetStrs_sset_self (σ : Session) (k : String) (xs : List String) :
    sgetStrs (sset σ k (.strs xs)) k = xs := by
  simp [sgetStrs, sget_sset_self]

theorem sgetStrs_sset_ne (σ : Session) (k k' : String) (v : SessVal)
    (h : k ≠ k') : sgetStrs (sset σ k v) k' = sgetStrs σ k' := by
  simp [sgetStrs, sget_sset_ne _ _ _ _ h]

theorem sget_clear_of_far_key (s t : String) (σ : Session) (k : String)
    (h : pyStartsWith k (s ++ "_" ++ t) = false) :
    sget (clear_session_data s t σ) k = sget σ k := by
  induction σ with
  | nil => simp [clear_session_data, sget]
  | cons kv rest ih =>
      cases hs : pyStartsWith kv.1 (s ++ "_" ++ t) with
      | true =>
          have hne : kv.1 ≠ k := by
            intro he; rw [he, h] at hs; exact Bool.false_ne_true hs
          simpa [clear_session_data, List.filter_cons, hs, sget, hne] using ih
      | false =>
          by_cases hk : kv.1 = k
          · simp [clear_session_data, List.filter_cons, hs, sget, hk, h]
          · simpa [clear_session_data, List.filter_cons, hs, sget, hk] using ih

theorem pyStartsWith_iff (s pre : String) :
    pyStartsWith s pre = true ↔ pre.data <+: s.data := by
  simp [pyStartsWith, List.isPrefixOf_iff_prefix]

/-- Prefixes of the same character list are comparable; used to separate
session scopes. -/
theorem scope_comparable {s1 t1 s2 t2 : String} {rest : List Char}
    (h1 : pyStartsWith (s1 ++ "_" ++ t1) (s2 ++ "_" ++ t2) = false)
    (h2 : pyStartsWith (s2 ++ "_" ++ t2) (s1 ++ "_" ++ t1) = false)
    (hpre : (s1 ++ "_" ++ t1).data <+: (s2 ++ "_" ++ t2).data ++ rest) : False := by
  have hcomp := List.prefix_or_prefix_of_prefix hpre
      (List.prefix_append (s2 ++ "_" ++ t2).data rest)
  rcases hcomp with hc | hc
  · have hb : pyStartsWith (s2 ++ "_" ++ t2) (s1 ++ "_" ++ t1) = true :=
      (pyStartsWith_iff _ _).mpr hc
    rw [h2] at hb; exact Bool.false_ne_true hb
  · have hb : pyStartsWith (s1 ++ "_" ++ t1) (s2 ++ "_" ++ t2) = true :=
      (pyStartsWith_iff _ _).mpr hc
    rw [h1] at hb; exact Bool.false_ne_true hb

theorem session_key_data (s t f : String) :
    (get_session_key s t f).data = (s ++ "_" ++ t).data ++ ('_' :: f.data) := by
  simp [get_session_key, String.data_append]

/-- A session key of one scope does not start with the text of a
non-overlapping scope. -/
theorem key_not_in_far_scope (s1 t1 s2 t2 f : String)
    (h1 : pyStartsWith (s1 ++ "_" ++ t1) (s2 ++ "_" ++ t2) = false)
    (h2 : pyStartsWith (s2 ++ "_" ++ t2) (s1 ++ "_" ++ t1) = false) :
    pyStartsWith (get_session_key s2 t2 f) (s1 ++ "_" ++ t1) = false := by
  by_cases h : pyStartsWith (get_session_key s2 t2 f) (s1 ++ "_" ++ t1)
  · exfalso
    have hp : (s1 ++ "_" ++ t1).data <+: (get_session_key s2 t2 f).data :=
      (pyStartsWith_iff _ _).mp h
    rw [session_key_data] at hp
    exact scope_comparable h1 h2 hp
  · simpa using h

/-- Session keys of non-overlapping scopes are distinct. -/
theorem keys_of_far_scopes_ne (s1 t1 s2 t2 f1 f2 : String)
    (h1 : pyStartsWith (s1 ++ "_" ++ t1) (s2 ++ "_" ++ t2) = false)
    (h2 : pyStartsWith (s2 ++ "_" ++ t2) (s1 ++ "_" ++ t1) = false) :
    get_session_key s1 t1 f1 ≠ get_session_key s2 t2 f2 := by
  intro he
  have hd : (get_session_key s1 t1 f1).data = (get_session_key s2 t2 f2).data := by
    rw [he]
  rw [session_key_data, session_key_data] at hd
  have hpre : (s1 ++ "_" ++ t1).data <+: (s2 ++ "_" ++ t2).data ++ ('_' :: f2.data) := by
    rw [← hd]
    exact List.prefix_append (s1 ++ "_" ++ t1).data ('_' :: f1.data)
  exact scope_comparable h1 h2 hpre

/-! ## Claim C8 — idempotence of progress marking -/

/-- C8: for every (subject, subtopic, item id) and every session state,
marking the same lesson or video complete twice leaves exactly the session
(hence the completed-lessons / watched-videos collection) produced by
marking it once, and every marking call — including re-marking an
already-complete item — reports success. -/
theorem C8_progress_marking_idempotent (σ : Session) (s t iden : String) :
    (mark_lesson_complete s t iden (mark_lesson_complete s t iden σ).2).2
      = (mark_lesson_complete s t iden σ).2
    ∧ get_completed_lessons s t (mark_lesson_complete s t iden (mark_lesson_complete s t iden σ).2).2
      = get_completed_lessons s t (mark_lesson_complete s t iden σ).2
    ∧ (mark_lesson_complete s t iden σ).1 = true
    ∧ (mark_lesson_complete s t iden (mark_lesson_complete s t iden σ).2).1 = true
    ∧ (mark_video_complete s t iden (mark_video_complete s t iden σ).2).2
      = (mark_video_complete s t iden σ).2
    ∧ get_watched_videos s t (mark_video_complete s t iden (mark_video_complete s t iden σ).2).2
      = get_watched_videos s t (mark_video_complete s t iden σ).2
    ∧ (mark_video_complete s t iden σ).1 = true
    ∧ (mark_video_complete s t iden (mark_video_complete s t iden σ).2).1 = true := by
  have hl : (mark_lesson_complete s t iden (mark_lesson_complete s t iden σ).2).2
      = (mark_lesson_complete s t iden σ).2
      ∧ (mark_lesson_complete s t iden σ).1 = true
      ∧ (mark_lesson_complete s t iden (mark_lesson_complete s t iden σ).2).1 = true := by
    by_cases hmem :
        iden ∈ sgetStrs σ (get_session_key s t "completed_lessons")
    · simp [mark_lesson_complete, hmem]
    · have hset : sgetStrs
          (sset σ (get_session_key s t "completed_lessons")
            (.strs (sgetStrs σ (get_session_key s t "completed_lessons") ++ [iden])))
          (get_session_key s t "completed_lessons")
          = sgetStrs σ (get_session_key s t "completed_lessons") ++ [iden] :=
        sgetStrs_sset_self ..
      simp [mark_lesson_complete, hmem, hset]
  have hv : (mark_video_complete s t iden (mark_video_complete s t iden σ).2).2
      = (mark_video_complete s t iden σ).2
      ∧ (mark_video_complete s t iden σ).1 = true
      ∧ (mark_video_complete s t iden (mark_video_complete s t iden σ).2).1 = true := by
    by_cases hmem :
        iden ∈ sgetStrs σ (get_session_key s t "watched_videos")
    · simp [mark_video_complete, hmem]
    · have hset : sgetStrs
          (sset σ (get_session_key s t "watched_videos")
            (.strs (sgetStrs σ (get_session_key s t "watched_videos") ++ [iden])))
          (get_session_key s t "watched_videos")
          = sgetStrs σ (get_session_key s t "watched_videos") ++ [iden] :=
        sgetStrs_sset_self ..
      simp [mark_video_complete, hmem, hset]
  refine ⟨hl.1, by rw [hl.1], hl.2.1, hl.2.2, hv.1, by rw [hv.1], hv.2.1, hv.2.2⟩

/-! ## Claim C4 — session isolation between scopes -/

/-- C4 (counterexample): the `f"{subject}_{subtopic}"` key scheme and the
prefix-based `clear_session_data` let distinct scopes interfere.  A lesson
recorded under scope `("a", "b_c")` is visible to the distinct scope
`("a_b", "c")`, and `clear_session_data` on the distinct scope `("a", "b")`
erases it. -/
theorem C4_session_isolation_counterexample :
    (("a", "b_c") ≠ (("a_b" : String), ("c" : String)))
    ∧ get_completed_lessons "a_b" "c" (mark_lesson_complete "a" "b_c" "l1" []).2
        = ["l1"]
    ∧ (("a", "b_c") ≠ (("a" : String), ("b" : String)))
    ∧ get_completed_lessons "a" "b_c" (mark_lesson_complete "a" "b_c" "l1" []).2
        = ["l1"]
    ∧ get_completed_lessons "a" "b_c"
        (clear_session_data "a" "b" (mark_lesson_complete "a" "b_c" "l1" []).2)
        = [] := by
  refine ⟨by decide, by decide, by decide, by decide, by decide⟩

/-- C4 (amended): for scopes whose `f"{subject}_{subtopic}"` texts are not
prefixes of one another, progress recorded under one scope (lessons, videos,
weak topics, analysis, remedial data) is invisible to queries for the other,
and `clear_session_data` on one scope leaves every key of the other scope
unchanged. -/
theorem C4_session_isolation_of_far_scopes
    (s1 t1 s2 t2 : String) (σ : Session) (iden : String)
    (topics : List String) (qs : List Question) (a : Analysis)
    (h1 : pyStartsWith (s1 ++ "_" ++ t1) (s2 ++ "_" ++ t2) = false)
    (h2 : pyStartsWith (s2 ++ "_" ++ t2) (s1 ++ "_" ++ t1) = false) :
    get_completed_lessons s2 t2 (mark_lesson_complete s1 t1 iden σ).2
      = get_completed_lessons s2 t2 σ
    ∧ get_watched_videos s2 t2 (mark_video_complete s1 t1 iden σ).2
      = get_watched_videos s2 t2 σ
    ∧ get_weak_topics s2 t2 (set_weak_topics s1 t1 topics σ)
      = get_weak_topics s2 t2 σ
    ∧ get_quiz_analysis s2 t2 (store_quiz_analysis s1 t1 a σ).2
      = get_quiz_analysis s2 t2 σ
    ∧ get_remedial_quiz_questions s2 t2 (set_remedial_quiz_data s1 t1 qs topics σ)
      = get_remedial_quiz_questions s2 t2 σ
    ∧ ∀ f, sget (clear_session_data s1 t1 σ) (get_session_key s2 t2 f)
      = sget σ (get_session_key s2 t2 f) := by
  have hne : ∀ f1 f2, get_session_key s1 t1 f1 ≠ get_session_key s2 t2 f2 :=
    fun f1 f2 => keys_of_far_scopes_ne s1 t1 s2 t2 f1 f2 h1 h2
  refine ⟨?_, ?_, ?_, ?_, ?_, ?_⟩
  · by_cases hmem :
        iden ∈ sgetStrs σ (get_session_key s1 t1 "completed_lessons")
    · simp [mark_lesson_complete, hmem]
    · simp only [mark_lesson_complete, if_neg hmem, get_completed_lessons]
      exact sgetStrs_sset_ne _ _ _ _ (hne _ _)
  · by_cases hmem :
        iden ∈ sgetStrs σ (get_session_key s1 t1 "watched_videos")
    · simp [mark_video_complete, hmem]
    · simp only [mark_video_complete, if_neg hmem, get_watched_videos]
      exact sgetStrs_sset_ne _ _ _ _ (hne _ _)
  · simp only [set_weak_topics, get_weak_topics, sgetStrs]
    rw [sget_sset_ne _ _ _ _ (hne _ _)]
  · simp only [store_quiz_analysis, get_quiz_analysis]
    rw [sget_sset_ne _ _ _ _ (hne _ _)]
  · simp only [set_remedial_quiz_data, get_remedial_quiz_questions]
    rw [sget_sset_ne _ _ _ _ (hne _ _), sget_sset_ne _ _ _ _ (hne _ _)]
  · intro f
    exact sget_clear_of_far_key _ _ _ _ (key_not_in_far_scope s1 t1 s2 t2 f h1 h2)

/-- C4 (witness): the amended isolation theorem applied to the concrete
non-overlapping scopes `("alg", "one")` and `("alg", "two")`. -/
theorem C4_session_isolation_witness :
    get_completed_lessons "alg" "two" (mark_lesson_complete "alg" "one" "l1" []).2
      = get_completed_lessons "alg" "two" [] :=
  (C4_session_isolation_of_far_scopes "alg" "one" "alg" "two" [] "l1" [] []
    { score := ⟨0, 0, 0⟩, weak_topics := [], weak_tags := [], weak_areas := [],
      feedback := "", ai_analysis := "", recommendations := [],
      submission_details := [], wrong_question_indices := [], allowed_tags := [],
      used_ai := false, analysis_stage := "basic", basic_feedback := "",
      rule_based_insights := [], subject := "", subtopic := "",
      submission_preview := none, raw_ai_response := none, missed_tags := [] }
    (by decide) (by decide)).1

/-! ## Claim C10 — the allowed-tag vocabulary is frozen per subject -/

/-- C10: once `_get_allowed_tags` holds a cached list for a subject (keyed
by the lower-cased subject name), every later call for that subject — with
any data service and any casing of the name — returns exactly the cached
list and leaves the cache unchanged; in particular the list normalised and
cached by a first fetch is returned by all subsequent calls. -/
theorem C10_allowed_tag_cache_frozen (s : String) (τ : TagCache) (hs : s ≠ "") :
    (∀ tags, cacheLookup τ (pyLower s) = some tags →
      ∀ ds, get_allowed_tags s ds τ = (tags, τ))
    ∧ (∀ f, cacheLookup τ (pyLower s) = none →
        ∀ ds' s', s' ≠ "" → pyLower s' = pyLower s →
          get_allowed_tags s' ds' (get_allowed_tags s (some f) τ).2
            = ((get_allowed_tags s (some f) τ).1,
               (get_allowed_tags s (some f) τ).2)) := by
  constructor
  · intro tags h ds
    simp [get_allowed_tags, hs, h]
  · intro f h ds' s' hs' hlow
    simp [get_allowed_tags, hs, hs', h, cacheLookup, hlow]

/-- C10 (witness): with `["X"]` cached under `"python"`, a call for
`"Python"` with a data service now reporting `["Y"]` still returns `["X"]`
and leaves the cache untouched. -/
theorem C10_allowed_tag_cache_frozen_witness :
    get_allowed_tags "Python" (some (fun _ => ["Y"])) [("python", ["X"])]
      = (["X"], [("python", ["X"])]) :=
  (C10_allowed_tag_cache_frozen "Python" [("python", ["X"])] (by decide)).1
    ["X"] (by decide) (some (fun _ => ["Y"]))

/-! ## Claim C7 — answer-evaluator type rules -/

/-- C7: the evaluator follows the type-specific rules — a blank (all
whitespace or missing) answer is incorrect for every type; a coding question
is always incorrect; a multiple-choice answer is correct exactly when its
trimmed text equals (case-sensitively) the trimmed resolved correct answer;
a fill-in-the-blank answer is correct exactly when its trimmed, lowered text
is a member of the merged comma-split primary answer and
`acceptable_answers`/`correct_answers` list. -/
theorem C7_answer_evaluator_rules (q : Question) (ua : String) :
    (pyStrip ua = "" → is_answer_correct q ua = false)
    ∧ (questionTypeNorm q = "coding" → is_answer_correct q ua = false)
    ∧ (pyStrip ua ≠ "" → questionTypeNorm q = "multiple_choice" →
        (is_answer_correct q ua = true ↔
          pyStrip ua = pyStrip (resolve_correct_answer q)))
    ∧ (pyStrip ua ≠ "" → questionTypeNorm q = "fill_in_the_blank" →
        (is_answer_correct q ua = true ↔
          pyLower (pyStrip ua) ∈ fillBlankAcceptable q)) := by
  refine ⟨?_, ?_, ?_, ?_⟩
  · intro h
    simp [is_answer_correct, h]
  · intro h
    by_cases hu : pyStrip ua = "" <;> simp [is_answer_correct, h, hu]
  · intro hu hmc
    simp [is_answer_correct, hu, hmc]
  · intro hu hfib
    by_cases hemp : (fillBlankAcceptable q).isEmpty
    · have he : fillBlankAcceptable q = [] := List.isEmpty_iff.mp hemp
      simp [is_answer_correct, hu, hfib, he]
    · simp [is_answer_correct, hu, hfib, hemp]

/-- C7 (witness): the rules applied to concrete questions — a trimmed
case-sensitive multiple-choice match and a lowered fill-in-the-blank
membership. -/
theorem C7_answer_evaluator_rules_witness :
    is_answer_correct (sampleQ "1" []) " x " = true
    ∧ is_answer_correct sampleFib "BETA" = true
    ∧ is_answer_correct (sampleQ "1" []) "  " = false :=
  ⟨((C7_answer_evaluator_rules (sampleQ "1" []) " x ").2.2.1 (by decide)
      (by decide)).mpr (by decide),
   ((C7_answer_evaluator_rules sampleFib "BETA").2.2.2 (by decide)
      (by decide)).mpr (by decide),
   (C7_answer_evaluator_rules (sampleQ "1" []) "  ").1 (by decide)⟩

/-! ## Supporting lemmas: tag normalisation and filtering -/

theorem normalizeTagsAux_lower_nodup (l : List String) : ∀ seen,
    ((normalizeTagsAux seen l).map pyLower).Nodup
    ∧ ∀ x ∈ normalizeTagsAux seen l, pyLower x ∉ seen := by
  induction l with
  | nil => intro seen; simp [normalizeTagsAux]
  | cons tag rest ih =>
      intro seen
      by_cases h1 : pyStrip tag = ""
      · simpa [normalizeTagsAux, h1] using ih seen
      · by_cases h2 : pyLower (pyStrip tag) ∈ seen
        · simpa [normalizeTagsAux, h1, h2] using ih seen
        · have ihs := ih (pyLower (pyStrip tag) :: seen)
          refine ⟨?_, ?_⟩
          · simp only [normalizeTagsAux, h1, h2, if_neg, if_pos, List.map_cons,
              List.nodup_cons, ite_false, List.mem_map]
            refine ⟨?_, ihs.1⟩
            rintro ⟨x, hx, hlx⟩
            exact (ihs.2 x hx) (by simp [hlx])
          · intro x hx
            simp only [normalizeTagsAux, h1, h2, ite_false, List.mem_cons] at hx
            rcases hx with rfl | hx
            · exact h2
            · intro hmem
              exact (ihs.2 x hx) (by simp [hmem])

theorem normalize_tags_lower_nodup (tags : List String) :
    ((normalize_tags tags).map pyLower).Nodup :=
  (normalizeTagsAux_lower_nodup tags []).1

theorem lookupAllowed_eq_some {allowed : List String} {key v : String}
    (h : lookupAllowed allowed key = some v) : v ∈ allowed ∧ pyLower v = key := by
  unfold lookupAllowed at h
  have hv := List.find?_some h
  have hm := List.mem_of_find?_eq_some h
  exact ⟨List.mem_reverse.mp hm, by simpa using hv⟩

theorem filterAllowedAux_lower_nodup (allowed : List String) (l : List String) :
    ∀ seen,
    ((filterAllowedAux allowed seen l).map pyLower).Nodup
    ∧ ∀ x ∈ filterAllowedAux allowed seen l, pyLower x ∉ seen ∧ x ∈ allowed := by
  induction l with
  | nil => intro seen; simp [filterAllowedAux]
  | cons tag rest ih =>
      intro seen
      by_cases h1 : pyStrip tag = ""
      · simpa [filterAllowedAux, h1] using ih seen
      · cases hl : lookupAllowed allowed (pyLower (pyStrip tag)) with
        | none => simpa [filterAllowedAux, h1, hl] using ih seen
        | some canonical =>
            have hcan := lookupAllowed_eq_some hl
            by_cases h2 : pyLower (pyStrip tag) ∈ seen
            · simpa [filterAllowedAux, h1, hl, h2] using ih seen
            · have ihs := ih (pyLower (pyStrip tag) :: seen)
              refine ⟨?_, ?_⟩
              · simp only [filterAllowedAux, h1, hl, h2, ite_false, List.map_cons,
                  List.nodup_cons, List.mem_map]
                refine ⟨?_, ihs.1⟩
                rintro ⟨x, hx, hlx⟩
                refine (ihs.2 x hx).1 ?_
                rw [hlx, hcan.2]
                simp
              · intro x hx
                simp only [filterAllowedAux, h1, hl, h2, ite_false,
                  List.mem_cons] at hx
                rcases hx with rfl | hx
                · exact ⟨by rw [hcan.2]; exact h2, hcan.1⟩
                · refine ⟨fun hmem => (ihs.2 x hx).1 (by simp [hmem]), (ihs.2 x hx).2⟩

theorem filter_allowed_tags_lower_nodup (tags allowed : List String) :
    ((filter_allowed_tags tags allowed).map pyLower).Nodup := by
  unfold filter_allowed_tags
  by_cases h : allowed.isEmpty
  · simpa [h] using normalize_tags_lower_nodup tags
  · simpa [h] using (filterAllowedAux_lower_nodup allowed tags []).1

theorem filter_allowed_tags_subset {tags allowed : List String}
    (h : ¬ allowed.isEmpty) :
    ∀ x ∈ filter_allowed_tags tags allowed, x ∈ allowed := by
  intro x hx
  unfold filter_allowed_tags at hx
  rw [if_neg h] at hx
  exact ((filterAllowedAux_lower_nodup allowed tags []).2 x hx).2

theorem weakTopicsNormalizeAux_eq_normalizeTagsAux (l : List String) :
    ∀ seen, weakTopicsNormalizeAux seen l = normalizeTagsAux seen l := by
  induction l with
  | nil => intro seen; rfl
  | cons tag rest ih =>
      intro seen
      simp only [weakTopicsNormalizeAux, normalizeTagsAux, ih]

/-! ## Claim C9 — weak-topic deduplication -/

/-- C9: no two entries of a produced `weak_topics` list are
case-insensitively equal — neither in the analysis computed by
`compute_basic_quiz_analysis` (through `filter_allowed_tags` /
`normalize_tags`) nor in any list stored by `set_weak_topics`. -/
theorem C9_weak_topic_dedup :
    (∀ (qs : List Question) (ans : List String) (subj subt : String)
       (ds : Option DataService) (τ : TagCache) (incl : Bool),
       (((compute_basic_quiz_analysis qs ans subj subt ds τ incl).1.weak_topics).map
         pyLower).Nodup)
    ∧ ∀ (s t : String) (topics : List String) (σ : Session),
       ((get_weak_topics s t (set_weak_topics s t topics σ)).map pyLower).Nodup := by
  constructor
  · intro qs ans subj subt ds τ incl
    simp only [compute_basic_quiz_analysis]
    by_cases h : (filter_allowed_tags (wrongTagCandidates qs ans)
        (get_allowed_tags subj ds τ).1).isEmpty
    · simpa [h] using normalize_tags_lower_nodup (wrongTagCandidates qs ans)
    · simpa [h] using
        filter_allowed_tags_lower_nodup (wrongTagCandidates qs ans)
          (get_allowed_tags subj ds τ).1
  · intro s t topics σ
    have hs : get_weak_topics s t (set_weak_topics s t topics σ)
        = weakTopicsNormalizeAux [] topics := by
      simp [get_weak_topics, set_weak_topics, sgetStrs_sset_self]
    rw [hs, weakTopicsNormalizeAux_eq_normalizeTagsAux]
    exact normalize_tags_lower_nodup topics

/-! ## Claim C2 — weak-topic vocabulary containment -/

/-- C2 (counterexample): with the non-empty vocabulary `["A"]` and one wrong
question tagged `"B"`, no candidate passes the vocabulary filter and the
code falls back to the normalised unfiltered candidates, surfacing `"B"`,
which is not a case-insensitive member of the vocabulary. -/
theorem C2_weak_topic_containment_counterexample :
    (compute_basic_quiz_analysis [sampleQ "1" ["B"]] ["y"] "s" "t"
       (some (fun _ => ["A"])) [] true).1.allowed_tags = ["A"]
    ∧ (compute_basic_quiz_analysis [sampleQ "1" ["B"]] ["y"] "s" "t"
       (some (fun _ => ["A"])) [] true).1.weak_topics = ["B"]
    ∧ ¬ ci_member "B" ["A"] :=
  ⟨by decide, by decide, by unfold ci_member; decide⟩

/-- C2 (amended): with a non-empty vocabulary, every `weak_topics` entry of
the basic analysis is a (case-insensitive, canonically cased) member of the
vocabulary provided at least one wrong-answer candidate tag passes the
vocabulary filter; when none passes, the analysis instead falls back to
surfacing the normalised unfiltered candidates. -/
theorem C2_weak_topic_containment_amended
    (qs : List Question) (ans : List String) (subj subt : String)
    (ds : Option DataService) (τ : TagCache) (incl : Bool)
    (hvocab : ¬ ((get_allowed_tags subj ds τ).1).isEmpty)
    (hfil : ¬ (filter_allowed_tags (wrongTagCandidates qs ans)
        (get_allowed_tags subj ds τ).1).isEmpty) :
    ∀ x ∈ (compute_basic_quiz_analysis qs ans subj subt ds τ incl).1.weak_topics,
      x ∈ (get_allowed_tags subj ds τ).1
      ∧ ci_member x (get_allowed_tags subj ds τ).1 := by
  intro x hx
  simp only [compute_basic_quiz_analysis, if_neg hfil] at hx
  have hsub := filter_allowed_tags_subset hvocab x hx
  exact ⟨hsub, x, hsub, rfl⟩

/-- C2 (witness): the amended containment applied to a concrete submission —
a wrong answer tagged `"b"` against the vocabulary `["B"]` surfaces the
canonical `"B"`, a member of the vocabulary. -/
theorem C2_weak_topic_containment_witness :
    "B" ∈ (get_allowed_tags "s" (some (fun _ => ["B"])) []).1
    ∧ ci_member "B" (get_allowed_tags "s" (some (fun _ => ["B"])) []).1 :=
  C2_weak_topic_containment_amended [sampleQ "1" ["b"]] ["y"] "s" "t"
    (some (fun _ => ["B"])) [] true (by decide) (by decide) "B" (by decide)

/-! ## Supporting lemmas: exact rounding -/

theorem py_round_eq_round_half_even (n d : Nat) (hd : 0 < d) :
    (py_round_ratio n d : ℤ) = round_half_even ((n : ℚ) / d) := by
  have hd0 : d ≠ 0 := Nat.pos_iff_ne_zero.mp hd
  have hdq : (0 : ℚ) < d := by exact_mod_cast hd
  have hdq0 : (d : ℚ) ≠ 0 := ne_of_gt hdq
  have hnd : (n : ℚ) = d * (n / d : ℕ) + (n % d : ℕ) := by
    exact_mod_cast (Nat.div_add_mod n d).symm
  have hx : (n : ℚ) / d = ((n / d : ℕ) : ℚ) + ((n % d : ℕ) : ℚ) / d := by
    rw [hnd]
    field_simp
    ring
  have hrd0 : (0 : ℚ) ≤ ((n % d : ℕ) : ℚ) / d := by positivity
  have hrd1 : ((n % d : ℕ) : ℚ) / d < 1 := by
    rw [div_lt_one hdq]
    exact_mod_cast Nat.mod_lt n hd
  have hfl0 : ⌊((n % d : ℕ) : ℚ) / d⌋ = 0 :=
    Int.floor_eq_zero_iff.mpr ⟨hrd0, hrd1⟩
  have hfloor : ⌊(n : ℚ) / d⌋ = ((n / d : ℕ) : ℤ) := by
    rw [hx, add_comm, Int.floor_add_nat, hfl0, zero_add]
  have hfract : Int.fract ((n : ℚ) / d) = ((n % d : ℕ) : ℚ) / d := by
    rw [← Int.self_sub_floor, hfloor, hx, Int.cast_natCast]
    ring
  have hlt : ((n % d : ℕ) : ℚ) / d < 1 / 2 ↔ 2 * (n % d) < d := by
    rw [div_lt_div_iff₀ hdq (by norm_num : (0 : ℚ) < 2), one_mul,
      mul_comm ((n % d : ℕ) : ℚ) 2]
    exact_mod_cast Iff.rfl
  have hgt : 1 / 2 < ((n % d : ℕ) : ℚ) / d ↔ d < 2 * (n % d) := by
    rw [div_lt_div_iff₀ (by norm_num : (0 : ℚ) < 2) hdq, one_mul,
      mul_comm ((n % d : ℕ) : ℚ) 2]
    exact_mod_cast Iff.rfl
  have hdvd : (2 : ℤ) ∣ ((n / d : ℕ) : ℤ) ↔ n / d % 2 = 0 := by
    rw [show ((2 : ℤ)) = ((2 : ℕ) : ℤ) by norm_num, Int.natCast_dvd_natCast]
    exact Nat.dvd_iff_mod_eq_zero
  rw [round_half_even, hfract, hfloor, py_round_ratio, if_neg hd0]
  by_cases h1 : 2 * (n % d) < d
  · rw [if_pos (hlt.mpr h1), if_pos h1]
  · rw [if_neg (fun hc => h1 (hlt.mp hc)), if_neg h1]
    by_cases h2 : d < 2 * (n % d)
    · rw [if_pos (hgt.mpr h2), if_pos h2]
      push_cast
      ring
    · rw [if_neg (fun hc => h2 (hgt.mp hc)), if_neg h2]
      by_cases h3 : n / d % 2 = 0
      · rw [if_pos (hdvd.mpr h3), if_pos h3]
      · rw [if_neg (fun hc => h3 (hdvd.mp hc)), if_neg h3]
        push_cast
        ring

/-! ## Claim C6 — score correctness -/

/-- C6: the analysis's score block reports `total` as the number of
questions, `correct` as the number of answers the evaluator accepts, and
`percentage` as the Python rounding (exact-arithmetic banker's rounding) of
`100 * correct / total`, with a zero-question quiz yielding percentage `0`
rather than a division error. -/
theorem C6_score_correctness (qs : List Question) (ans : List String)
    (subj subt : String) (ds : Option DataService) (τ : TagCache) (incl : Bool) :
    (compute_basic_quiz_analysis qs ans subj subt ds τ incl).1.score.total
      = qs.length
    ∧ (compute_basic_quiz_analysis qs ans subj subt ds τ incl).1.score.correct
      = correctCount qs ans
    ∧ ((compute_basic_quiz_analysis qs ans subj subt ds τ incl).1.score.percentage : ℤ)
      = (if qs.length = 0 then 0
         else round_half_even (100 * (correctCount qs ans : ℚ) / (qs.length : ℚ))) := by
  refine ⟨rfl, rfl, ?_⟩
  by_cases h : qs.length = 0
  · simp [compute_basic_quiz_analysis, h]
  · have hd : 0 < qs.length := Nat.pos_of_ne_zero h
    simp only [compute_basic_quiz_analysis, if_neg h]
    rw [py_round_eq_round_half_even (correctCount qs ans * 100) qs.length hd]
    congr 1
    push_cast
    ring

/-! ## Supporting lemmas: prerequisite resolution -/

theorem mem_dedupKeysFirst (l : List String) : ∀ seen x,
    x ∈ dedupKeysFirst seen l ↔ x ∈ l ∧ x ∉ seen := by
  induction l with
  | nil => intro seen x; simp [dedupKeysFirst]
  | cons k rest ih =>
      intro seen x
      by_cases hk : k ∈ seen
      · rw [dedupKeysFirst, if_pos hk, ih]
        simp only [List.mem_cons]
        constructor
        · rintro ⟨hx, hs⟩; exact ⟨Or.inr hx, hs⟩
        · rintro ⟨hx | hx, hs⟩
          · exact absurd hk (hx ▸ hs)
          · exact ⟨hx, hs⟩
      · rw [dedupKeysFirst, if_neg hk]
        simp only [List.mem_cons, ih]
        constructor
        · rintro (rfl | ⟨hx, hs⟩)
          · exact ⟨Or.inl rfl, hk⟩
          · exact ⟨Or.inr hx, fun hs2 => hs (Or.inr hs2)⟩
        · rintro ⟨rfl | hx, hs⟩
          · exact Or.inl rfl
          · by_cases hxk : x = k
            · exact Or.inl hxk
            · exact Or.inr ⟨hx, by simp [hxk, hs]⟩

theorem dedupKeysFirst_nil_iff (l : List String) :
    dedupKeysFirst [] l = [] ↔ l = [] := by
  cases l with
  | nil => simp [dedupKeysFirst]
  | cons k rest => simp [dedupKeysFirst]

theorem content_complete_iff (env : ContentEnv) (s t : String) (σ : Session) :
    (collect_subtopic_content_status env s t σ).all_content_complete = true
    ↔ ((∀ i ∈ (env.lessons s t).map (·.1), i ∈ get_completed_lessons s t σ)
       ∧ (∀ i ∈ (env.videos s t).map (·.1), i ∈ get_watched_videos s t σ)) := by
  simp only [collect_subtopic_content_status, Bool.and_eq_true]
  constructor
  · rintro ⟨hl, hv⟩
    constructor
    · intro i hi
      by_cases he : (dedupKeysFirst [] ((env.lessons s t).map (·.1))).isEmpty
      · exfalso
        rw [List.isEmpty_iff, dedupKeysFirst_nil_iff] at he
        simp [he] at hi
      · rw [if_neg he, List.isEmpty_iff, List.map_eq_nil_iff,
          List.filter_eq_nil_iff] at hl
        have hmem : i ∈ dedupKeysFirst [] ((env.lessons s t).map (·.1)) :=
          (mem_dedupKeysFirst _ [] i).mpr ⟨hi, by simp⟩
        have := hl i hmem
        simpa using this
    · intro i hi
      by_cases he : ((env.videos s t).map (·.1)).isEmpty
      · rw [List.isEmpty_iff] at he
        simp [he] at hi
      · rw [if_neg he, List.isEmpty_iff, List.map_eq_nil_iff,
          List.filter_eq_nil_iff] at hv
        have := hv i hi
        simpa using this
  · rintro ⟨hl, hv⟩
    constructor
    · by_cases he : (dedupKeysFirst [] ((env.lessons s t).map (·.1))).isEmpty
      · rw [if_pos he]
      · rw [if_neg he, List.isEmpty_iff, List.map_eq_nil_iff,
          List.filter_eq_nil_iff]
        intro i hmem
        have hi := ((mem_dedupKeysFirst _ [] i).mp hmem).1
        simpa using hl i hi
    · by_cases he : ((env.videos s t).map (·.1)).isEmpty
      · rw [if_pos he]
      · rw [if_neg he, List.isEmpty_iff, List.map_eq_nil_iff,
          List.filter_eq_nil_iff]
        intro i hmem
        simpa using hv i hmem

theorem mem_missingPrereqIds (env : ContentEnv) (subject : String) (σ : Session)
    (l : List String) (p : String) :
    p ∈ missingPrereqIds env subject σ l
    ↔ p ∈ l ∧ (alookup (env.subtopics subject) p = none
        ∨ (collect_subtopic_content_status env subject p σ).all_content_complete
            = false) := by
  induction l with
  | nil => simp [missingPrereqIds]
  | cons a rest ih =>
      rw [missingPrereqIds]
      cases hl : alookup (env.subtopics subject) a with
      | none =>
          dsimp only
          simp only [List.mem_cons, ih]
          constructor
          · rintro (rfl | ⟨hm, hc⟩)
            · exact ⟨Or.inl rfl, Or.inl hl⟩
            · exact ⟨Or.inr hm, hc⟩
          · rintro ⟨rfl | hm, hc⟩
            · exact Or.inl rfl
            · exact Or.inr ⟨hm, hc⟩
      | some cfg =>
          dsimp only
          cases hc : (collect_subtopic_content_status env subject a σ).all_content_complete with
          | true =>
              rw [if_pos rfl]
              simp only [List.mem_cons, ih]
              constructor
              · rintro ⟨hm, hcond⟩
                exact ⟨Or.inr hm, hcond⟩
              · rintro ⟨rfl | hm, hcond⟩
                · rcases hcond with h | h
                  · rw [hl] at h; exact Option.noConfusion h
                  · rw [hc] at h; exact absurd h (by simp)
                · exact ⟨hm, hcond⟩
          | false =>
              rw [if_neg (by simp)]
              simp only [List.mem_cons, ih]
              constructor
              · rintro (rfl | ⟨hm, hcond⟩)
                · exact ⟨Or.inl rfl, Or.inr hc⟩
                · exact ⟨Or.inr hm, hcond⟩
              · rintro ⟨rfl | hm, hcond⟩
                · exact Or.inl rfl
                · exact Or.inr ⟨hm, hcond⟩

/-! ## Claim C5 — the prerequisite gate decision -/

/-- C5: `check_subtopic_prerequisites` reports
`can_access_subtopic = admin_override OR (missing_prerequisite_ids = [])`,
and a configured prerequisite id is missing exactly when it is not a
recognised subtopic of the subject, or its completion — every lesson id of
the prerequisite in the completed list AND every video id in the watched
list, each dimension vacuously complete when empty — fails. -/
theorem C5_prerequisite_gate_decision (env : ContentEnv)
    (subject subtopic : String) (σ : Session) :
    (check_subtopic_prerequisites env subject subtopic σ).admin_override
      = get_admin_override_status σ
    ∧ (check_subtopic_prerequisites env subject subtopic σ).can_access_subtopic
      = ((check_subtopic_prerequisites env subject subtopic σ).admin_override
         || (check_subtopic_prerequisites env subject subtopic σ).missing_prerequisite_ids.isEmpty)
    ∧ ∀ p, p ∈ (check_subtopic_prerequisites env subject subtopic σ).missing_prerequisite_ids
        ↔ p ∈ (check_subtopic_prerequisites env subject subtopic σ).prerequisite_ids
          ∧ (alookup (env.subtopics subject) p = none
             ∨ ¬ ((∀ i ∈ (env.lessons subject p).map (·.1),
                     i ∈ get_completed_lessons subject p σ)
                  ∧ (∀ i ∈ (env.videos subject p).map (·.1),
                     i ∈ get_watched_videos subject p σ))) := by
  refine ⟨rfl, rfl, ?_⟩
  intro p
  show p ∈ missingPrereqIds env subject σ _ ↔ _
  rw [mem_missingPrereqIds]
  constructor
  · rintro ⟨hm, hc | hc⟩
    · exact ⟨hm, Or.inl hc⟩
    · refine ⟨hm, Or.inr ?_⟩
      intro hcomp
      rw [(content_complete_iff env subject p σ).mpr hcomp] at hc
      exact absurd hc (by simp)
  · rintro ⟨hm, hc | hc⟩
    · exact ⟨hm, Or.inl hc⟩
    · refine ⟨hm, Or.inr ?_⟩
      cases hb : (collect_subtopic_content_status env subject p σ).all_content_complete with
      | false => rfl
      | true => exact absurd ((content_complete_iff env subject p σ).mp hb) hc

/-! ## Supporting lemmas: the enrichment fallback -/

theorem pyOrList_self {α : Type} (a : List α) : pyOrList a a = a := by
  simp [pyOrList]

theorem normalizeTagsAux_nil_iff (l : List String) : ∀ seen,
    normalizeTagsAux seen l = []
    ↔ ∀ y ∈ l, pyStrip y = "" ∨ pyLower (pyStrip y) ∈ seen := by
  induction l with
  | nil => intro seen; simp [normalizeTagsAux]
  | cons tag rest ih =>
      intro seen
      by_cases h1 : pyStrip tag = ""
      · simp [normalizeTagsAux, h1, ih]
      · by_cases h2 : pyLower (pyStrip tag) ∈ seen
        · simp [normalizeTagsAux, h1, h2, ih]
        · simp [normalizeTagsAux, h1, h2, ih]

theorem filter_allowed_tags_nil (allowed : List String) :
    filter_allowed_tags [] allowed = [] := by
  unfold filter_allowed_tags
  split
  · rfl
  · rfl

/-- When the basic analysis surfaces no weak topics, the tag lists of its
rule-based insights are all empty. -/
theorem base_weak_nil_insights (qs : List Question) (ans : List String)
    (subj subt : String) (ds : Option DataService) (τ : TagCache)
    (h : (compute_basic_quiz_analysis qs ans subj subt ds τ true).1.weak_topics = []) :
    (((compute_basic_quiz_analysis qs ans subj subt ds τ true).1.rule_based_insights).map
      (·.tags)).flatten = [] := by
  have hnorm : normalize_tags (wrongTagCandidates qs ans) = [] := by
    simp only [compute_basic_quiz_analysis] at h
    by_cases hf : (filter_allowed_tags (wrongTagCandidates qs ans)
        (get_allowed_tags subj ds τ).1).isEmpty
    · simpa [hf] using h
    · rw [if_neg hf] at h
      exact absurd (List.isEmpty_iff.mpr h) hf
  have hall : ∀ y ∈ wrongTagCandidates qs ans, pyStrip y = "" := by
    intro y hy
    have := (normalizeTagsAux_nil_iff (wrongTagCandidates qs ans) []).mp hnorm y hy
    simpa using this
  have hins : ((compute_basic_quiz_analysis qs ans subj subt ds τ true).1.rule_based_insights).map
      (·.tags) = (wrongRows qs ans).map
        (fun r => normalize_tags (apply_rule_based_topics r.2.1 false
          (collect_question_tags r.2.1))) := by
    simp [compute_basic_quiz_analysis, insightList, List.map_map]
  rw [hins]
  rw [List.flatten_eq_nil_iff]
  intro xs hxs
  rcases List.mem_map.mp hxs with ⟨r, hr, rfl⟩
  rw [normalize_tags, normalizeTagsAux_nil_iff]
  intro y hy
  refine Or.inl (hall y ?_)
  unfold wrongTagCandidates
  rw [List.mem_flatten]
  exact ⟨apply_rule_based_topics r.2.1 false (collect_question_tags r.2.1),
    List.mem_map_of_mem _ hr, hy⟩

/-- The enrichment layer's `fallback_tags` always equal the basic analysis's
`weak_topics`. -/
theorem fallback_eq_base_weak (ds : DataService) (τ : TagCache)
    (qs : List Question) (ans : List String) (subj subt : String) :
    (let base := (compute_basic_quiz_analysis qs ans subj subt (some ds) τ true).1
     let allowedPg := pyOrList base.allowed_tags (ds subj)
     let wtc := (base.rule_based_insights.map (·.tags)).flatten
     if (pyOrList base.weak_tags base.weak_topics).isEmpty then
       (if (filter_allowed_tags wtc allowedPg).isEmpty then normalize_tags wtc
        else filter_allowed_tags wtc allowedPg)
     else pyOrList base.weak_tags base.weak_topics)
    = (compute_basic_quiz_analysis qs ans subj subt (some ds) τ true).1.weak_topics := by
  dsimp only
  have hw : (compute_basic_quiz_analysis qs ans subj subt (some ds) τ true).1.weak_tags
      = (compute_basic_quiz_analysis qs ans subj subt (some ds) τ true).1.weak_topics := rfl
  rw [hw, pyOrList_self]
  by_cases hnil :
      ((compute_basic_quiz_analysis qs ans subj subt (some ds) τ true).1.weak_topics).isEmpty
  · rw [if_pos hnil]
    have hb := List.isEmpty_iff.mp hnil
    have hfl := base_weak_nil_insights qs ans subj subt (some ds) τ hb
    rw [hfl, filter_allowed_tags_nil, hb]
    rfl
  · rw [if_neg hnil]

/-! ## Claim C3 — enrichment fallback -/

/-- C3 (counterexample): a parsable LLM response none of whose tags belongs
to the allowed vocabulary still produces `used_ai = true` (the AI feedback
is kept while the tags fall back), contradicting the claim's
`used_ai = false` for that case. -/
theorem C3_enrichment_fallback_counterexample :
    (analyze_quiz_performance (fun _ => ["A"]) [] [] true
        (.parsed "raw" ["nope"] (some "fb") none)
        [sampleQ "1" ["A"]] ["y"] "s" "t" none).1.used_ai = true
    ∧ (analyze_quiz_performance (fun _ => ["A"]) [] [] true
        (.parsed "raw" ["nope"] (some "fb") none)
        [sampleQ "1" ["A"]] ["y"] "s" "t" none).1.weak_topics
      = (compute_basic_quiz_analysis [sampleQ "1" ["A"]] ["y"] "s" "t"
          (some (fun _ => ["A"])) [] true).1.weak_topics
    ∧ ¬ ci_member "nope" ["A"] :=
  ⟨by decide, by decide, by unfold ci_member; decide⟩

/-- C3 (amended): with no cached enrichment for the submission, when the
LLM collaborator is unavailable, or its call fails, or its response does not
parse, the enriched analysis's `weak_topics` exactly equal the basic
analysis's `weak_topics` and `used_ai` is `false`; a response that parses
but yields no tag inside the vocabulary also falls back to the basic weak
topics, but keeps the AI feedback and reports `used_ai = true`. -/
theorem C3_enrichment_fallback_amended (ds : DataService) (τ : TagCache)
    (qs : List Question) (ans : List String) (subj subt : String)
    (available : Bool) (outcome : LLMOutcome)
    (h : available = false ∨ outcome.isParsed = false) :
    (analyze_quiz_performance ds τ [] available outcome qs ans subj subt none).1.weak_topics
      = (compute_basic_quiz_analysis qs ans subj subt (some ds) τ true).1.weak_topics
    ∧ (analyze_quiz_performance ds τ [] available outcome qs ans subj subt none).1.used_ai
      = false := by
  cases available with
  | false => exact ⟨rfl, rfl⟩
  | true =>
      rcases h with ha | ho
      · exact absurd ha (by simp)
      · cases outcome with
        | parsed r ts d f => simp [LLMOutcome.isParsed] at ho
        | failed =>
            refine ⟨?_, rfl⟩
            show (let base := (compute_basic_quiz_analysis qs ans subj subt (some ds) τ true).1
                  let allowedPg := pyOrList base.allowed_tags (ds subj)
                  let wtc := (base.rule_based_insights.map (·.tags)).flatten
                  if (pyOrList base.weak_tags base.weak_topics).isEmpty then
                    (if (filter_allowed_tags wtc allowedPg).isEmpty then normalize_tags wtc
                     else filter_allowed_tags wtc allowedPg)
                  else pyOrList base.weak_tags base.weak_topics)
                = (compute_basic_quiz_analysis qs ans subj subt (some ds) τ true).1.weak_topics
            exact fallback_eq_base_weak ds τ qs ans subj subt
        | unparsable r =>
            refine ⟨?_, rfl⟩
            show (let base := (compute_basic_quiz_analysis qs ans subj subt (some ds) τ true).1
                  let allowedPg := pyOrList base.allowed_tags (ds subj)
                  let wtc := (base.rule_based_insights.map (·.tags)).flatten
                  if (pyOrList base.weak_tags base.weak_topics).isEmpty then
                    (if (filter_allowed_tags wtc allowedPg).isEmpty then normalize_tags wtc
                     else filter_allowed_tags wtc allowedPg)
                  else pyOrList base.weak_tags base.weak_topics)
                = (compute_basic_quiz_analysis qs ans subj subt (some ds) τ true).1.weak_topics
            exact fallback_eq_base_weak ds τ qs ans subj subt

/-- C3 (witness): the amended fallback applied to a concrete submission with
the collaborator unavailable. -/
theorem C3_enrichment_fallback_witness :
    (analyze_quiz_performance (fun _ => ["A"]) [] [] false .failed
        [sampleQ "1" ["A"]] ["y"] "s" "t" none).1.weak_topics
      = (compute_basic_quiz_analysis [sampleQ "1" ["A"]] ["y"] "s" "t"
          (some (fun _ => ["A"])) [] true).1.weak_topics
    ∧ (analyze_quiz_performance (fun _ => ["A"]) [] [] false .failed
        [sampleQ "1" ["A"]] ["y"] "s" "t" none).1.used_ai = false :=
  C3_enrichment_fallback_amended (fun _ => ["A"]) [] [sampleQ "1" ["A"]] ["y"]
    "s" "t" false .failed (Or.inl rfl)

/-! ## Supporting lemmas: the remedial selector -/

theorem dedupByIdentity_eq_self (l : List Question) : ∀ seen,
    (l.map question_identity).Nodup →
    (∀ q ∈ l, question_identity q ∉ seen) →
    dedupByIdentity seen l = l := by
  induction l with
  | nil => intro seen _ _; rfl
  | cons q rest ih =>
      intro seen hnd hseen
      rw [dedupByIdentity, if_neg (hseen q (List.mem_cons_self ..))]
      have hnd' : (∀ x ∈ rest, ¬ question_identity x = question_identity q)
          ∧ (rest.map question_identity).Nodup := by simpa using hnd
      congr 1
      apply ih
      · exact hnd'.2
      · intro q' hq'
        simp only [List.mem_cons]
        rintro (he | hs)
        · exact hnd'.1 q' hq' he
        · exact hseen q' (List.mem_cons_of_mem _ hq') hs

theorem filter_not_length (p : Question → Bool) (l : List Question) :
    (l.filter p).length + (l.filter (fun a => ¬ p a)).length = l.length := by
  have he : (fun a => (¬ p a : Bool)) = fun a => !p a := by
    funext a; cases p a <;> simp
  rw [he]
  calc (l.filter p).length + (l.filter (fun a => !p a)).length
      = (l.filter p ++ l.filter (fun a => !p a)).length :=
        (List.length_append ..).symm
    _ = l.length := (List.filter_append_perm p l).length_eq

theorem filter_partition_nodup_ids (p : Question → Bool) (u : List Question)
    (hnd : (u.map question_identity).Nodup) (n m : Nat) :
    ((((u.filter p).take n) ++ ((u.filter (fun a => ¬ p a)).take m)).map
      question_identity).Nodup := by
  rw [List.map_append, List.nodup_append]
  have hsub1 : ((u.filter p).take n).Sublist u :=
    ((u.filter p).take_sublist n).trans (u.filter_sublist)
  have hsub2 : ((u.filter (fun a => ¬ p a)).take m).Sublist u :=
    (((u.filter (fun a => ¬ p a))).take_sublist m).trans (u.filter_sublist)
  refine ⟨(hsub1.map question_identity).nodup hnd,
          (hsub2.map question_identity).nodup hnd, ?_⟩
  intro x hx hy
  rcases List.mem_map.mp hx with ⟨q1, hq1, rfl⟩
  rcases List.mem_map.mp hy with ⟨q2, hq2, hid⟩
  have hq1u : q1 ∈ u := hsub1.subset hq1
  have hq2u : q2 ∈ u := hsub2.subset hq2
  have heq : q2 = q1 := List.inj_on_of_nodup_map hnd hq2u hq1u hid
  have hp1 : p q1 = true :=
    (List.mem_filter.mp (((u.filter p).take_sublist n).subset hq1)).2
  have hp2 : (¬ p q2) = true :=
    by simpa using
      (List.mem_filter.mp ((((u.filter (fun a => ¬ p a))).take_sublist m).subset hq2)).2
  rw [heq, hp1] at hp2
  simp at hp2

/-- Core bounds of the remedial selection pattern, for any relevance
predicate `p`, on a pool with pairwise distinct question identities. -/
theorem select_core_bounds (p : Question → Bool) (pool : List Question)
    (hnd : (pool.map question_identity).Nodup) :
    (let u := dedupByIdentity [] pool
     let relevant := u.filter p
     let filler := u.filter (fun q => ¬ p q)
     let target := min 10 pool.length
     let min_target := min 7 pool.length
     let sel := if relevant.isEmpty then u.take 10
       else if min_target ≤ (relevant.take target).length then relevant.take target
       else relevant.take target ++
         filler.take (min_target - (relevant.take target).length)
     min 7 pool.length ≤ sel.length ∧ sel.length ≤ min 10 pool.length
     ∧ (∀ q ∈ sel, q ∈ pool) ∧ (sel.map question_identity).Nodup) := by
  dsimp only
  have hu : dedupByIdentity [] pool = pool :=
    dedupByIdentity_eq_self pool [] hnd (by simp)
  rw [hu]
  have hlen : (pool.filter p).length + (pool.filter (fun q => ¬ p q)).length
      = pool.length := filter_not_length p pool
  have hmt : min 7 pool.length ≤ min 10 pool.length :=
    min_le_min (by norm_num) (le_refl _)
  by_cases hrelE : (pool.filter p).isEmpty
  · rw [if_pos hrelE]
    refine ⟨?_, ?_, ?_, ?_⟩
    · simp [List.length_take]
    · simp [List.length_take]
    · intro q hq; exact (pool.take_sublist 10).subset hq
    · exact ((pool.take_sublist 10).map question_identity).nodup hnd
  · rw [if_neg hrelE]
    by_cases hge : min 7 pool.length
        ≤ ((pool.filter p).take (min 10 pool.length)).length
    · rw [if_pos hge]
      refine ⟨hge, ?_, ?_, ?_⟩
      · rw [List.length_take]; exact min_le_left _ _
      · intro q hq
        exact pool.filter_sublist.subset
          (((pool.filter p).take_sublist _).subset hq)
      · exact ((((pool.filter p).take_sublist _).trans
          pool.filter_sublist).map question_identity).nodup hnd
    · rw [if_neg hge]
      push_neg at hge
      have htr : ((pool.filter p).take (min 10 pool.length)).length
          = min (min 10 pool.length) (pool.filter p).length := List.length_take ..
      have hrel_lt : (pool.filter p).length < min 7 pool.length := by
        rw [htr] at hge
        rcases le_or_lt (pool.filter p).length (min 10 pool.length) with hcase | hcase
        · rwa [min_eq_right hcase] at hge
        · rw [min_eq_left (le_of_lt hcase)] at hge
          exact absurd hge (not_lt.mpr hmt)
      have hrel_le : (pool.filter p).length ≤ min 10 pool.length :=
        le_trans (le_of_lt hrel_lt) hmt
      have hsel0 : (pool.filter p).take (min 10 pool.length) = pool.filter p :=
        List.take_of_length_le hrel_le
      rw [hsel0]
      have hn7 : min 7 pool.length ≤ pool.length := min_le_right _ _
      have hfil_ge : min 7 pool.length - (pool.filter p).length
          ≤ (pool.filter (fun q => ¬ p q)).length := by omega
      have hlensel : ((pool.filter p) ++ (pool.filter (fun q => ¬ p q)).take
          (min 7 pool.length - (pool.filter p).length)).length
          = min 7 pool.length := by
        rw [List.length_append, List.length_take, min_eq_left hfil_ge]
        omega
      refine ⟨le_of_eq hlensel.symm, ?_, ?_, ?_⟩
      · rw [hlensel]; exact hmt
      · intro q hq
        rcases List.mem_append.mp hq with hq | hq
        · exact pool.filter_sublist.subset hq
        · exact pool.filter_sublist.subset
            (((pool.filter (fun q => ¬ p q)).take_sublist _).subset hq)
      · have := filter_partition_nodup_ids p pool hnd (pool.filter p).length
          (min 7 pool.length - (pool.filter p).length)
        rwa [List.take_length] at this

/-! ## Claim C1 — remedial selection bounds -/

/-- C1 (counterexample): on a non-empty pool of eight copies of one
question, deduplication by identity leaves a single selectable question, so
the (spec-modelled) remedial selector returns one question — below the
claimed lower bound `min(7, pool_size) = 7`. -/
theorem C1_remedial_selection_bounds_counterexample :
    (List.replicate 8 (sampleQ "1" ["loops"]) : List Question) ≠ []
    ∧ (select_remedial_questions (List.replicate 8 (sampleQ "1" ["loops"]))
        ["loops"] 7 10).length = 1
    ∧ ¬ (min 7 (List.replicate 8 (sampleQ "1" ["loops"]) : List Question).length
        ≤ (select_remedial_questions (List.replicate 8 (sampleQ "1" ["loops"]))
            ["loops"] 7 10).length) :=
  ⟨by decide, by decide, by decide⟩

/-- C1 (amended): for every non-empty pool of questions with pairwise
distinct identities (`id`, or question text when `id` is absent or blank)
and every weak-topic set, the (spec-modelled) remedial selector returns
between `min(7, pool_size)` and `min(10, pool_size)` questions, each drawn
from the pool, with no identity selected twice; a pool with duplicated
identities collapses under deduplication and can fall below the lower
bound. -/
theorem C1_remedial_selection_bounds (pool : List Question)
    (topics : List String) (_hne : pool ≠ [])
    (hnd : (pool.map question_identity).Nodup) :
    min 7 pool.length ≤ (select_remedial_questions pool topics 7 10).length
    ∧ (select_remedial_questions pool topics 7 10).length ≤ min 10 pool.length
    ∧ (∀ q ∈ select_remedial_questions pool topics 7 10, q ∈ pool)
    ∧ ((select_remedial_questions pool topics 7 10).map question_identity).Nodup :=
  select_core_bounds
    (fun q => q.tags.any (fun t => pyLower t ∈ topics.map pyLower)) pool hnd

/-- C1 (witness): the bounds at the concrete nine-question pool with weak
topic `"Loops"` (three relevant questions; seven selected). -/
theorem C1_remedial_selection_bounds_witness :
    min 7 witnessPool.length
      ≤ (select_remedial_questions witnessPool ["Loops"] 7 10).length
    ∧ (select_remedial_questions witnessPool ["Loops"] 7 10).length
      ≤ min 10 witnessPool.length
    ∧ (∀ q ∈ select_remedial_questions witnessPool ["Loops"] 7 10, q ∈ witnessPool)
    ∧ ((select_remedial_questions witnessPool ["Loops"] 7 10).map
        question_identity).Nodup :=
  C1_remedial_selection_bounds witnessPool ["Loops"] (by decide) (by decide)
